import Mathlib

/-!
Verification development for the sticky-notes backend.

The repository contains three variants of the same Express/WebSocket server:
`server.js` (POST handler with only an inline missing-fields check),
`src/unnamed/part_000` (full server with a `validateNote` middleware), and
`src/unnamed/part_001` (handler module using `validateNote`).  The mongoose
schema (message required, maxLength 500; signature required, unique;
walletAddress required; color enum with default `yellow`; timestamp defaulted
at creation) is identical in all variants, as are the GET route
(sort timestamp descending, limit 1000), the broadcast loop over
`wss.clients` filtered by `readyState === OPEN`, the duplicate-key catch
(error code 11000 gives HTTP 400), and the 30-second heartbeat sweep.
-/

namespace StickyNotes

/-- A JSON value as delivered by body-parser for a single body field. -/
inductive JValue where
  | jstr (s : String)
  | jnum (n : Int)
  | jbool (b : Bool)
  | jnull
deriving DecidableEq

/-- JavaScript truthiness of a possibly absent body field (`undefined`,
`null`, `""`, `0` and `false` are falsy). -/
def truthy : Option JValue → Bool
  | none => false
  | some JValue.jnull => false
  | some (JValue.jstr s) => !(s == "")
  | some (JValue.jnum n) => !(n == 0)
  | some (JValue.jbool b) => b

/-- Whether `typeof field === "string"` holds. -/
def isStr : Option JValue → Bool
  | some (JValue.jstr _) => true
  | _ => false

/-- JavaScript `v.length > cap`: only strings have a numeric `length`;
on other values `length` is `undefined` and the comparison is false. -/
def lengthExceeds (v : Option JValue) (cap : Nat) : Bool :=
  match v with
  | some (JValue.jstr s) => cap < s.length
  | _ => false

def ALLOWED_COLORS : List String := ["pink", "purple", "blue", "green", "yellow"]

def MESSAGE_MAX_LENGTH : Nat := 500

/-- `ALLOWED_COLORS.includes(color)`: membership is only possible for a
string value. -/
def colorAllowed : Option JValue → Bool
  | some (JValue.jstr s) => ALLOWED_COLORS.contains s
  | _ => false

/-- The JSON body of a POST /api/sticky-notes request. -/
structure Body where
  message : Option JValue
  signature : Option JValue
  walletAddress : Option JValue
  color : Option JValue
deriving DecidableEq

/-- The `validateNote` middleware of part_000 (lines 110-130): missing
fields, then message length, then data types, then color palette; returns
the HTTP error response it short-circuits with, or `none` for `next()`. -/
def validateNote (b : Body) : Option (Nat × String) :=
  if !truthy b.message || !truthy b.signature || !truthy b.walletAddress then
    some (400, "Missing required fields")
  else if lengthExceeds b.message MESSAGE_MAX_LENGTH then
    some (400, "Message too long")
  else if !(isStr b.message && isStr b.signature && isStr b.walletAddress) then
    some (400, "Invalid data types")
  else if truthy b.color && !colorAllowed b.color then
    some (400, "Invalid color selection")
  else
    none

/-- A stored sticky note (one mongoose document). -/
structure Note where
  message : String
  signature : String
  walletAddress : String
  color : String
  timestamp : Nat
deriving DecidableEq

/-- Mongoose cast of a body field to the schema's String type. -/
def castString : Option JValue → String
  | some (JValue.jstr s) => s
  | some (JValue.jnum n) => toString n
  | some (JValue.jbool b) => if b then "true" else "false"
  | _ => ""

/-- `new StickyNote({ message, signature, walletAddress, color: color || 'yellow' })`
with the schema's `timestamp` default assigned at creation. -/
def mkDoc (b : Body) (now : Nat) : Note :=
  { message := castString b.message
    signature := castString b.signature
    walletAddress := castString b.walletAddress
    color := if truthy b.color then castString b.color else "yellow"
    timestamp := now }

inductive SaveResult where
  | ok
  | validationError
  | duplicateKey
  | storageError
deriving DecidableEq

/-- `newNote.save()`: schema validators (required, maxLength 500, color
enum) run first; then the storage layer can be unavailable; then the unique
index on `signature` rejects a duplicate with error code 11000. -/
def save (store : List Note) (storageOk : Bool) (doc : Note) : SaveResult :=
  if doc.message == "" || doc.signature == "" || doc.walletAddress == "" then
    SaveResult.validationError
  else if MESSAGE_MAX_LENGTH < doc.message.length then
    SaveResult.validationError
  else if !ALLOWED_COLORS.contains doc.color then
    SaveResult.validationError
  else if !storageOk then
    SaveResult.storageError
  else if store.any (fun n => n.signature == doc.signature) then
    SaveResult.duplicateKey
  else
    SaveResult.ok

inductive WsReadyState where
  | CONNECTING
  | OPEN
  | CLOSING
  | CLOSED
deriving DecidableEq

/-- One WebSocket connection as tracked in `wss.clients`, with the
heartbeat flag and an environment-chosen fate for its next `send`. -/
structure Client where
  id : Nat
  readyState : WsReadyState
  isAlive : Bool
  sendFails : Bool
deriving DecidableEq

/-- One attempted `client.send(payload)`: `ok` is false when that client's
transport errors the frame away (an error isolated to that client). -/
structure Send where
  clientId : Nat
  payload : String
  ok : Bool
deriving DecidableEq

/-- `wss.clients.forEach`: attempt a send to every client whose
`readyState` is OPEN; a failing send never stops the loop. -/
def broadcastSends (clients : List Client) (payload : String) : List Send :=
  (clients.filter (fun c => c.readyState == WsReadyState.OPEN)).map
    (fun c => { clientId := c.id, payload := payload, ok := !c.sendFails })

/-- `JSON.stringify` of a stored note, fields in schema order. -/
def noteToJson (n : Note) : String :=
  "\x7b\"message\":\"" ++ n.message ++ "\",\"signature\":\"" ++ n.signature ++
    "\",\"walletAddress\":\"" ++ n.walletAddress ++ "\",\"color\":\"" ++ n.color ++
    "\",\"timestamp\":" ++ toString n.timestamp ++ "\x7d"

/-- Observable outcome of one POST request: HTTP status, error body,
201 body, resulting store, and the broadcast sends performed. -/
structure PostResult where
  status : Nat
  errorMsg : Option String
  note : Option Note
  store : List Note
  sends : List Send
deriving DecidableEq

/-- The shared try/catch body of the POST handler: construct the document,
save it; on success serialize the stored note once, broadcast it and answer
201; on duplicate key (11000) answer 400 with the conflict message; on any
other save error answer 500.  No branch other than success touches the
store or broadcasts. -/
def postHandler (store : List Note) (now : Nat) (storageOk : Bool)
    (clients : List Client) (b : Body) : PostResult :=
  let doc := mkDoc b now
  match save store storageOk doc with
  | SaveResult.ok =>
      let broadcastData := noteToJson doc
      { status := 201, errorMsg := none, note := some doc,
        store := store ++ [doc],
        sends := broadcastSends clients broadcastData }
  | SaveResult.duplicateKey =>
      { status := 400, errorMsg := some "Note with this signature already exists",
        note := none, store := store, sends := [] }
  | SaveResult.validationError =>
      { status := 500, errorMsg := some "Internal server error",
        note := none, store := store, sends := [] }
  | SaveResult.storageError =>
      { status := 500, errorMsg := some "Internal server error",
        note := none, store := store, sends := [] }

/-- POST pipeline of part_000 / part_001: `validateNote` middleware first,
then the handler. -/
def validatedPost (store : List Note) (now : Nat) (storageOk : Bool)
    (clients : List Client) (b : Body) : PostResult :=
  match validateNote b with
  | some e =>
      { status := e.1, errorMsg := some e.2, note := none, store := store, sends := [] }
  | none => postHandler store now storageOk clients b

/-- POST pipeline of server.js: only the inline missing-fields check (lines
109-111), then the same handler; there is no length, type or color
validation before `save`. -/
def serverJsPost (store : List Note) (now : Nat) (storageOk : Bool)
    (clients : List Client) (b : Body) : PostResult :=
  if !truthy b.message || !truthy b.signature || !truthy b.walletAddress then
    { status := 400, errorMsg := some "Missing required fields",
      note := none, store := store, sends := [] }
  else postHandler store now storageOk clients b

/-- GET /api/sticky-notes: `StickyNote.find().sort({timestamp: -1}).limit(1000)`. -/
def getNotes (store : List Note) : List Note :=
  (store.mergeSort (fun a b => decide (b.timestamp ≤ a.timestamp))).take 1000

/-- Events driving the heartbeat machinery: a periodic sweep tick, or a
pong received from one client. -/
inductive WsEvent where
  | sweep
  | pong (id : Nat)
deriving DecidableEq

/-- One heartbeat sweep (the 30-second `setInterval` body): terminate every
client whose `isAlive` flag is false; reset the survivors' flags to false
and ping them. -/
def applySweep (clients : List Client) : List Client :=
  (clients.filter (fun c => c.isAlive)).map (fun c => { c with isAlive := false })

/-- The `pong` listener: a pong from client `i` sets its flag back to true. -/
def applyPong (clients : List Client) (i : Nat) : List Client :=
  clients.map (fun c => if c.id == i then { c with isAlive := true } else c)

def wsStep (clients : List Client) : WsEvent → List Client
  | WsEvent.sweep => applySweep clients
  | WsEvent.pong i => applyPong clients i

def wsRun (clients : List Client) (events : List WsEvent) : List Client :=
  events.foldl wsStep clients

/-- Stores reachable from the empty store by POST requests through either
pipeline (GET does not change the store). -/
inductive Reachable : List Note → Prop where
  | init : Reachable []
  | stepValidated (s : List Note) (now : Nat) (storageOk : Bool)
      (clients : List Client) (b : Body) (h : Reachable s) :
      Reachable (validatedPost s now storageOk clients b).store
  | stepServerJs (s : List Note) (now : Nat) (storageOk : Bool)
      (clients : List Client) (b : Body) (h : Reachable s) :
      Reachable (serverJsPost s now storageOk clients b).store

/-- Request body whose three text fields are strings. -/
def strBody (m s w : String) (c : Option JValue) : Body :=
  { message := some (JValue.jstr m), signature := some (JValue.jstr s),
    walletAddress := some (JValue.jstr w), color := c }

theorem validatedPost_eq_error {b : Body} {e : Nat × String} (h : validateNote b = some e)
    (store : List Note) (now : Nat) (storageOk : Bool) (clients : List Client) :
    validatedPost store now storageOk clients b =
      { status := e.1, errorMsg := some e.2, note := none, store := store, sends := [] } := by
  unfold validatedPost
  rw [h]

theorem validatedPost_eq_handler {b : Body} (h : validateNote b = none)
    (store : List Note) (now : Nat) (storageOk : Bool) (clients : List Client) :
    validatedPost store now storageOk clients b = postHandler store now storageOk clients b := by
  unfold validatedPost
  rw [h]

theorem serverJsPost_eq_handler {b : Body}
    (h : (!truthy b.message || !truthy b.signature || !truthy b.walletAddress) = false)
    (store : List Note) (now : Nat) (storageOk : Bool) (clients : List Client) :
    serverJsPost store now storageOk clients b = postHandler store now storageOk clients b := by
  unfold serverJsPost
  simp [h]

theorem validateNote_some_400 {b : Body} {e : Nat × String} (h : validateNote b = some e) :
    e.1 = 400 := by
  unfold validateNote at h
  repeat' split at h
  all_goals first
    | (injection h with h2
       exact h2 ▸ rfl)
    | exact Option.noConfusion h

theorem save_ok_fresh {store : List Note} {storageOk : Bool} {doc : Note}
    (h : save store storageOk doc = SaveResult.ok) :
    store.any (fun n => n.signature == doc.signature) = false := by
  unfold save at h
  repeat' split at h
  all_goals simp_all

theorem postHandler_cases (store : List Note) (now : Nat) (storageOk : Bool)
    (clients : List Client) (b : Body) :
    (save store storageOk (mkDoc b now) = SaveResult.ok ∧
      postHandler store now storageOk clients b =
        { status := 201, errorMsg := none, note := some (mkDoc b now),
          store := store ++ [mkDoc b now],
          sends := broadcastSends clients (noteToJson (mkDoc b now)) }) ∨
    ((postHandler store now storageOk clients b).store = store ∧
      (postHandler store now storageOk clients b).sends = [] ∧
      (postHandler store now storageOk clients b).status ≠ 201) := by
  unfold postHandler
  cases h : save store storageOk (mkDoc b now) <;> simp [h]

/-- C3: for both POST pipelines, either no publish happens at all, or the
response is 201 and the note was appended to the store; hence publish is
attempted only after a successful persist, and a note whose persist step
fails is never published. -/
theorem C3_persist_before_publish (store : List Note) (now : Nat) (storageOk : Bool)
    (clients : List Client) (b : Body) :
    ((validatedPost store now storageOk clients b).sends = [] ∨
      ((validatedPost store now storageOk clients b).status = 201 ∧
        (validatedPost store now storageOk clients b).store = store ++ [mkDoc b now])) ∧
    ((serverJsPost store now storageOk clients b).sends = [] ∨
      ((serverJsPost store now storageOk clients b).status = 201 ∧
        (serverJsPost store now storageOk clients b).store = store ++ [mkDoc b now])) := by
  constructor
  · cases hv : validateNote b with
    | some e =>
        rw [validatedPost_eq_error hv]
        exact Or.inl rfl
    | none =>
        rw [validatedPost_eq_handler hv]
        rcases postHandler_cases store now storageOk clients b with ⟨_, heq⟩ | ⟨_, h2, _⟩
        · rw [heq]
          right
          exact ⟨rfl, rfl⟩
        · exact Or.inl h2
  · by_cases hm : (!truthy b.message || !truthy b.signature || !truthy b.walletAddress) = true
    · left
      unfold serverJsPost
      simp [hm]
    · rw [serverJsPost_eq_handler (Bool.not_eq_true _ ▸ (by simpa using hm))]
      rcases postHandler_cases store now storageOk clients b with ⟨_, heq⟩ | ⟨_, h2, _⟩
      · rw [heq]
        right
        exact ⟨rfl, rfl⟩
      · exact Or.inl h2

/-- C4: the GET route returns at most 1000 notes, sorted newest-first by
timestamp. -/
theorem C4_list_capped_sorted (store : List Note) :
    (getNotes store).length ≤ 1000 ∧
      List.Pairwise (fun a b : Note => b.timestamp ≤ a.timestamp) (getNotes store) := by
  constructor
  · simp only [getNotes]
    exact List.length_take_le 1000 _
  · have hs := @List.sorted_mergeSort Note
      (fun a b : Note => decide (b.timestamp ≤ a.timestamp))
      (fun a b c h1 h2 => by
        simp only [decide_eq_true_eq] at h1 h2 ⊢
        omega)
      (fun a b => by
        simp only [Bool.or_eq_true, decide_eq_true_eq]
        omega)
      store
    have ht := List.Pairwise.sublist (List.take_sublist 1000 _) hs
    simp only [getNotes]
    exact ht.imp (by
      intro a b h
      simpa using h)

theorem postHandler_store_nodup {store : List Note} {now : Nat} {storageOk : Bool}
    {clients : List Client} {b : Body}
    (hnd : (store.map Note.signature).Nodup) :
    (((postHandler store now storageOk clients b).store.map Note.signature).Nodup) ∧
      ∃ t, (postHandler store now storageOk clients b).store = store ++ t := by
  rcases postHandler_cases store now storageOk clients b with ⟨hok, heq⟩ | ⟨h1, _, _⟩
  · rw [heq]
    refine ⟨?_, [mkDoc b now], rfl⟩
    have hfresh := save_ok_fresh hok
    simp only [List.any_eq_false, beq_iff_eq] at hfresh
    simp only [List.map_append, List.map_cons, List.map_nil, List.nodup_append,
      List.nodup_cons, List.not_mem_nil, not_false_eq_true, List.nodup_nil,
      List.disjoint_singleton, true_and, List.mem_map, not_exists, not_and]
    exact ⟨hnd, fun n hn he => hfresh n hn he⟩
  · rw [h1]
    exact ⟨hnd, [], by simp⟩

theorem validatedPost_store_nodup {store : List Note} (now : Nat) (storageOk : Bool)
    (clients : List Client) (b : Body)
    (hnd : (store.map Note.signature).Nodup) :
    (((validatedPost store now storageOk clients b).store.map Note.signature).Nodup) ∧
      ∃ t, (validatedPost store now storageOk clients b).store = store ++ t := by
  cases hv : validateNote b with
  | some e =>
      rw [validatedPost_eq_error hv]
      exact ⟨hnd, [], by simp⟩
  | none =>
      rw [validatedPost_eq_handler hv]
      exact postHandler_store_nodup hnd

theorem serverJsPost_store_nodup {store : List Note} (now : Nat) (storageOk : Bool)
    (clients : List Client) (b : Body)
    (hnd : (store.map Note.signature).Nodup) :
    (((serverJsPost store now storageOk clients b).store.map Note.signature).Nodup) ∧
      ∃ t, (serverJsPost store now storageOk clients b).store = store ++ t := by
  by_cases hm : (!truthy b.message || !truthy b.signature || !truthy b.walletAddress) = true
  · unfold serverJsPost
    simp only [hm, if_true]
    exact ⟨hnd, [], by simp⟩
  · rw [serverJsPost_eq_handler (by simpa using hm)]
    exact postHandler_store_nodup hnd

/-- C2: every store reachable through the POST pipelines has pairwise
distinct signatures, and each operation only ever appends to the store:
no stored note is mutated or deleted. -/
theorem C2_unique_signatures_append_only (s : List Note) (h : Reachable s) :
    ((s.map Note.signature).Nodup) ∧
      ∀ (now : Nat) (storageOk : Bool) (clients : List Client) (b : Body),
        (∃ t, (validatedPost s now storageOk clients b).store = s ++ t) ∧
          (∃ t, (serverJsPost s now storageOk clients b).store = s ++ t) := by
  have hnd : (s.map Note.signature).Nodup := by
    induction h with
    | init => simp
    | stepValidated s now storageOk clients b h ih =>
        exact (validatedPost_store_nodup now storageOk clients b ih).1
    | stepServerJs s now storageOk clients b h ih =>
        exact (serverJsPost_store_nodup now storageOk clients b ih).1
  refine ⟨hnd, fun now storageOk clients b => ?_⟩
  exact ⟨(validatedPost_store_nodup now storageOk clients b hnd).2,
    (serverJsPost_store_nodup now storageOk clients b hnd).2⟩

/-- Witness for C2 at the empty store. -/
theorem C2_witness :
    ((([] : List Note).map Note.signature).Nodup) ∧
      ∀ (now : Nat) (storageOk : Bool) (clients : List Client) (b : Body),
        (∃ t, (validatedPost [] now storageOk clients b).store = [] ++ t) ∧
          (∃ t, (serverJsPost [] now storageOk clients b).store = [] ++ t) :=
  C2_unique_signatures_append_only [] Reachable.init

theorem payload_of_mem_broadcastSends {clients : List Client} {payload : String} {s : Send}
    (h : s ∈ broadcastSends clients payload) : s.payload = payload := by
  simp only [broadcastSends, List.mem_map, List.mem_filter] at h
  obtain ⟨c, _, rfl⟩ := h
  rfl

theorem clientId_of_mem_broadcastSends {clients : List Client} {payload : String} {s : Send}
    (h : s ∈ broadcastSends clients payload) : s.clientId ∈ clients.map Client.id := by
  simp only [broadcastSends, List.mem_map, List.mem_filter] at h ⊢
  obtain ⟨c, ⟨hc, _⟩, rfl⟩ := h
  exact ⟨c, hc, rfl⟩

theorem broadcastSends_filter (clients : List Client) (payload : String) (cl : Client)
    (hnd : (clients.map Client.id).Nodup) (hmem : cl ∈ clients)
    (hopen : cl.readyState = WsReadyState.OPEN) :
    (broadcastSends clients payload).filter (fun s => s.clientId == cl.id) =
      [{ clientId := cl.id, payload := payload, ok := !cl.sendFails }] := by
  induction clients with
  | nil => cases hmem
  | cons c rest ih =>
      simp only [List.map_cons, List.nodup_cons] at hnd
      obtain ⟨hcid, hndr⟩ := hnd
      rcases List.mem_cons.mp hmem with rfl | hmr
      · have hbs : broadcastSends (cl :: rest) payload =
            { clientId := cl.id, payload := payload, ok := !cl.sendFails } ::
              broadcastSends rest payload := by
          simp [broadcastSends, hopen]
        rw [hbs, List.filter_cons]
        simp only [beq_self_eq_true, if_true]
        have hnil : (broadcastSends rest payload).filter (fun s => s.clientId == cl.id) = [] := by
          apply List.filter_eq_nil_iff.mpr
          intro s hsm
          have hmm := clientId_of_mem_broadcastSends hsm
          simp only [beq_iff_eq]
          intro hcontra
          rw [hcontra] at hmm
          exact hcid hmm
        rw [hnil]
      · have hne : (c.id == cl.id) = false := by
          simp only [beq_eq_false_iff_ne, ne_eq]
          intro he
          exact hcid (by
            rw [he]
            exact List.mem_map_of_mem Client.id hmr)
        by_cases hro : c.readyState = WsReadyState.OPEN
        · have hbs : broadcastSends (c :: rest) payload =
              { clientId := c.id, payload := payload, ok := !c.sendFails } ::
                broadcastSends rest payload := by
            simp [broadcastSends, hro]
          rw [hbs, List.filter_cons]
          simp only [hne, if_false]
          exact ih hndr hmr
        · have hbs : broadcastSends (c :: rest) payload = broadcastSends rest payload := by
            simp [broadcastSends, hro]
          rw [hbs]
          exact ih hndr hmr

/-- C5: after a successful Submit through the validated pipeline, the sends
list holds exactly one entry for each registered client that is OPEN at
publish time, carrying the serialized stored note; that entry's delivery
outcome depends only on the client's own send fate, so one client's failure
never prevents delivery to the others (which appear with their own
outcomes regardless). -/
theorem C5_broadcast_exactly_once (store : List Note) (now : Nat) (clients : List Client)
    (b : Body) (cl : Client)
    (hnd : (clients.map Client.id).Nodup) (hmem : cl ∈ clients)
    (hopen : cl.readyState = WsReadyState.OPEN)
    (h201 : (validatedPost store now true clients b).status = 201) :
    (validatedPost store now true clients b).sends.filter (fun s => s.clientId == cl.id) =
      [{ clientId := cl.id, payload := noteToJson (mkDoc b now), ok := !cl.sendFails }] := by
  cases hv : validateNote b with
  | some e =>
      rw [validatedPost_eq_error hv] at h201
      have := validateNote_some_400 hv
      simp only [this] at h201
      cases h201
  | none =>
      rw [validatedPost_eq_handler hv] at h201 ⊢
      rcases postHandler_cases store now true clients b with ⟨_, heq⟩ | ⟨_, _, h3⟩
      · rw [heq] at h201 ⊢
        exact broadcastSends_filter clients (noteToJson (mkDoc b now)) cl hnd hmem hopen
      · exact absurd h201 h3

def demoBody : Body := strBody "hi" "sig1" "0xabc" (some (JValue.jstr "pink"))

def demoClients : List Client :=
  [ { id := 0, readyState := WsReadyState.OPEN, isAlive := true, sendFails := false },
    { id := 1, readyState := WsReadyState.OPEN, isAlive := true, sendFails := true },
    { id := 2, readyState := WsReadyState.CLOSED, isAlive := true, sendFails := false } ]

/-- Witness for C5: a concrete submission over three clients, one of whose
sends fails; the open non-failing client still gets exactly one delivery. -/
theorem C5_witness :
    (validatedPost [] 7 true demoClients demoBody).sends.filter
        (fun s => s.clientId == (0 : Nat)) =
      [{ clientId := 0, payload := noteToJson (mkDoc demoBody 7), ok := true }] :=
  C5_broadcast_exactly_once [] 7 demoClients demoBody
    { id := 0, readyState := WsReadyState.OPEN, isAlive := true, sendFails := false }
    (by decide) (by decide) (by decide) (by decide)

/-- C10: every send of a successful submission carries one and the same
payload, the JSON serialization of the very note returned in the HTTP 201
response body. -/
theorem C10_single_serialization (store : List Note) (now : Nat) (storageOk : Bool)
    (clients : List Client) (b : Body) (s1 : Send)
    (h1 : s1 ∈ (validatedPost store now storageOk clients b).sends) :
    (validatedPost store now storageOk clients b).status = 201 ∧
      (validatedPost store now storageOk clients b).note = some (mkDoc b now) ∧
      s1.payload = noteToJson (mkDoc b now) := by
  cases hv : validateNote b with
  | some e =>
      rw [validatedPost_eq_error hv] at h1
      cases h1
  | none =>
      rw [validatedPost_eq_handler hv] at h1 ⊢
      rcases postHandler_cases store now storageOk clients b with ⟨_, heq⟩ | ⟨_, h2, _⟩
      · rw [heq] at h1 ⊢
        exact ⟨rfl, rfl, payload_of_mem_broadcastSends h1⟩
      · rw [h2] at h1
        cases h1

/-- Witness for C10 at a concrete submission and one concrete send. -/
theorem C10_witness :
    (validatedPost [] 7 true demoClients demoBody).status = 201 ∧
      (validatedPost [] 7 true demoClients demoBody).note = some (mkDoc demoBody 7) ∧
      Send.payload { clientId := 0, payload := noteToJson (mkDoc demoBody 7), ok := true } =
        noteToJson (mkDoc demoBody 7) :=
  C10_single_serialization [] 7 true demoClients demoBody
    { clientId := 0, payload := noteToJson (mkDoc demoBody 7), ok := true }
    (by decide)

/-- Every client with id `i` still registered has its liveness flag down. -/
def flagFalseAt (i : Nat) (cs : List Client) : Prop :=
  ∀ c ∈ cs, c.id = i → c.isAlive = false

/-- No registered client has id `i`. -/
def absentAt (i : Nat) (cs : List Client) : Prop :=
  ∀ c ∈ cs, c.id ≠ i

theorem applySweep_flagFalse (i : Nat) (cs : List Client) :
    flagFalseAt i (applySweep cs) := by
  intro c hc _
  simp only [applySweep, List.mem_map, List.mem_filter] at hc
  obtain ⟨d, _, rfl⟩ := hc
  rfl

theorem applySweep_absent_of_flagFalse {i : Nat} {cs : List Client}
    (h : flagFalseAt i cs) : absentAt i (applySweep cs) := by
  intro c hc heq
  simp only [applySweep, List.mem_map, List.mem_filter] at hc
  obtain ⟨d, ⟨hd, hdAlive⟩, rfl⟩ := hc
  have hfalse := h d hd heq
  rw [hfalse] at hdAlive
  cases hdAlive

theorem applyPong_flagFalse {i j : Nat} {cs : List Client} (hne : j ≠ i)
    (h : flagFalseAt i cs) : flagFalseAt i (applyPong cs j) := by
  intro c hc hci
  simp only [applyPong, List.mem_map] at hc
  obtain ⟨d, hd, rfl⟩ := hc
  by_cases hdj : (d.id == j) = true
  · simp only [hdj, if_true] at hci ⊢
    exact absurd (hci ▸ beq_iff_eq.mp hdj) hne.symm
  · simp only [Bool.not_eq_true] at hdj
    simp only [hdj, Bool.false_eq_true, if_false] at hci ⊢
    exact h d hd hci

theorem wsRun_flagFalse {i : Nat} {es : List WsEvent}
    (hno : ∀ e ∈ es, e ≠ WsEvent.pong i) :
    ∀ {cs : List Client}, flagFalseAt i cs → flagFalseAt i (wsRun cs es) := by
  induction es with
  | nil => exact fun h => h
  | cons e rest ih =>
      intro cs h
      have hstep : flagFalseAt i (wsStep cs e) := by
        cases e with
        | sweep => exact applySweep_flagFalse i cs
        | pong j =>
            have hji : j ≠ i := by
              intro hji
              exact hno (WsEvent.pong j) (List.mem_cons_self _ _) (by rw [hji])
            exact applyPong_flagFalse hji h
      exact ih (fun e' he' => hno e' (List.mem_cons_of_mem _ he')) hstep

theorem wsStep_absent {i : Nat} {cs : List Client} (h : absentAt i cs) (e : WsEvent) :
    absentAt i (wsStep cs e) := by
  cases e with
  | sweep =>
      intro c hc
      simp only [wsStep, applySweep, List.mem_map, List.mem_filter] at hc
      obtain ⟨d, ⟨hd, _⟩, rfl⟩ := hc
      exact h d hd
  | pong j =>
      intro c hc
      simp only [wsStep, applyPong, List.mem_map] at hc
      obtain ⟨d, hd, rfl⟩ := hc
      by_cases hdj : (d.id == j) = true
      · simp only [hdj, if_true]
        exact h d hd
      · simp only [Bool.not_eq_true] at hdj
        simp only [hdj, Bool.false_eq_true, if_false]
        exact h d hd

theorem wsRun_absent {i : Nat} {es : List WsEvent} :
    ∀ {cs : List Client}, absentAt i cs → absentAt i (wsRun cs es) := by
  induction es with
  | nil => exact fun h => h
  | cons e rest ih => exact fun h => ih (wsStep_absent h e)

/-- C7: under the heartbeat sweep (evict a flagged-dead connection,
otherwise flag it dead and probe it; a pong revives the flag), a connection
that sends no pong across a window containing two consecutive sweeps — that
is, one that answers neither of two consecutive liveness probes — is no
longer registered afterwards and receives no send of any further
broadcast. -/
theorem C7_heartbeat_eviction (cs : List Client) (i : Nat) (p : String)
    (es1 es2 : List WsEvent)
    (h1 : ∀ e ∈ es1, e ≠ WsEvent.pong i) (_h2 : ∀ e ∈ es2, e ≠ WsEvent.pong i) :
    absentAt i (wsRun cs (WsEvent.sweep :: (es1 ++ WsEvent.sweep :: es2))) ∧
      ∀ s ∈ broadcastSends (wsRun cs (WsEvent.sweep :: (es1 ++ WsEvent.sweep :: es2))) p,
        s.clientId ≠ i := by
  have e0 : wsRun cs (WsEvent.sweep :: (es1 ++ WsEvent.sweep :: es2)) =
      wsRun (applySweep (wsRun (applySweep cs) es1)) es2 := by
    simp [wsRun, List.foldl_cons, List.foldl_append, wsStep]
  have key : absentAt i (wsRun cs (WsEvent.sweep :: (es1 ++ WsEvent.sweep :: es2))) := by
    rw [e0]
    exact wsRun_absent
      (applySweep_absent_of_flagFalse (wsRun_flagFalse h1 (applySweep_flagFalse i cs)))
  refine ⟨key, ?_⟩
  intro s hs heq
  have hmm := clientId_of_mem_broadcastSends hs
  simp only [List.mem_map] at hmm
  obtain ⟨c, hc, hcid⟩ := hmm
  exact key c hc (by rw [hcid, heq])

/-- Witness for C7: one open connection, two sweeps with no pong. -/
theorem C7_witness :
    absentAt 7 (wsRun
        [{ id := 7, readyState := WsReadyState.OPEN, isAlive := true, sendFails := false }]
        (WsEvent.sweep :: ([] ++ WsEvent.sweep :: []))) ∧
      ∀ s ∈ broadcastSends (wsRun
          [{ id := 7, readyState := WsReadyState.OPEN, isAlive := true, sendFails := false }]
          (WsEvent.sweep :: ([] ++ WsEvent.sweep :: []))) "x",
        s.clientId ≠ 7 :=
  C7_heartbeat_eviction
    [{ id := 7, readyState := WsReadyState.OPEN, isAlive := true, sendFails := false }]
    7 "x" [] [] (by simp) (by simp)

theorem postHandler_of_save_ok (clients : List Client) {store : List Note} {now : Nat}
    {storageOk : Bool} {b : Body}
    (h : save store storageOk (mkDoc b now) = SaveResult.ok) :
    postHandler store now storageOk clients b =
      { status := 201, errorMsg := none, note := some (mkDoc b now),
        store := store ++ [mkDoc b now],
        sends := broadcastSends clients (noteToJson (mkDoc b now)) } := by
  simp only [postHandler, h]

theorem postHandler_of_save_dup (clients : List Client) {store : List Note} {now : Nat}
    {storageOk : Bool} {b : Body}
    (h : save store storageOk (mkDoc b now) = SaveResult.duplicateKey) :
    postHandler store now storageOk clients b =
      { status := 400, errorMsg := some "Note with this signature already exists",
        note := none, store := store, sends := [] } := by
  simp only [postHandler, h]

/-- A request whose three text fields are nonempty strings within the
length bound, with an omitted or palette color, passes `validateNote`. -/
theorem validateNote_strBody_none {m s w : String} {c : Option JValue}
    (hm : m ≠ "") (hml : m.length ≤ 500) (hs : s ≠ "") (hw : w ≠ "")
    (hc : c = none ∨ ∃ cs, c = some (JValue.jstr cs) ∧ cs ∈ ALLOWED_COLORS) :
    validateNote (strBody m s w c) = none := by
  have hm' : (m == "") = false := beq_eq_false_iff_ne.mpr hm
  have hs' : (s == "") = false := beq_eq_false_iff_ne.mpr hs
  have hw' : (w == "") = false := beq_eq_false_iff_ne.mpr hw
  have hml' : decide (MESSAGE_MAX_LENGTH < m.length) = false :=
    decide_eq_false (by
      simp only [MESSAGE_MAX_LENGTH]
      omega)
  have hcA : (truthy c && !colorAllowed c) = false := by
    rcases hc with rfl | ⟨cs, rfl, hcs⟩
    · rfl
    · have hca : colorAllowed (some (JValue.jstr cs)) = true := by
        simp only [ALLOWED_COLORS, List.mem_cons, List.not_mem_nil, or_false] at hcs
        rcases hcs with rfl | rfl | rfl | rfl | rfl <;> decide
      simp [hca]
  have htm : truthy (some (JValue.jstr m)) = true := by simp [truthy, hm']
  have hts : truthy (some (JValue.jstr s)) = true := by simp [truthy, hs']
  have htw : truthy (some (JValue.jstr w)) = true := by simp [truthy, hw']
  have hle : lengthExceeds (some (JValue.jstr m)) MESSAGE_MAX_LENGTH = false := by
    simp [lengthExceeds, hml']
  unfold validateNote strBody
  simp [htm, hts, htw, hle, hcA, isStr]

theorem mkDoc_strBody (m s w : String) (c : Option JValue) (now : Nat) :
    mkDoc (strBody m s w c) now =
      { message := m, signature := s, walletAddress := w,
        color := if truthy c then castString c else "yellow", timestamp := now } := rfl

theorem serverJsPost_strBody_pass {m s w : String} {c : Option JValue}
    (hm : m ≠ "") (hs : s ≠ "") (hw : w ≠ "")
    (store : List Note) (now : Nat) (storageOk : Bool) (clients : List Client) :
    serverJsPost store now storageOk clients (strBody m s w c) =
      postHandler store now storageOk clients (strBody m s w c) := by
  have hm' : (m == "") = false := beq_eq_false_iff_ne.mpr hm
  have hs' : (s == "") = false := beq_eq_false_iff_ne.mpr hs
  have hw' : (w == "") = false := beq_eq_false_iff_ne.mpr hw
  exact serverJsPost_eq_handler (by simp [strBody, truthy, hm', hs', hw']) store now storageOk clients

/-- C1: resubmitting a well-formed note whose signature is already stored
yields, in both POST pipelines, HTTP 400 with the message "Note with this
signature already exists", an unchanged store, and no broadcast. -/
theorem C1_duplicate_signature_conflict (store : List Note) (now : Nat)
    (clients : List Client) (m s w : String) (c : Option JValue)
    (hm : m ≠ "") (hml : m.length ≤ 500) (hs : s ≠ "") (hw : w ≠ "")
    (hc : c = none ∨ ∃ cs, c = some (JValue.jstr cs) ∧ cs ∈ ALLOWED_COLORS)
    (hdup : ∃ n ∈ store, n.signature = s) :
    ((validatedPost store now true clients (strBody m s w c)).status = 400 ∧
      (validatedPost store now true clients (strBody m s w c)).errorMsg =
        some "Note with this signature already exists" ∧
      (validatedPost store now true clients (strBody m s w c)).store = store ∧
      (validatedPost store now true clients (strBody m s w c)).sends = []) ∧
    ((serverJsPost store now true clients (strBody m s w c)).status = 400 ∧
      (serverJsPost store now true clients (strBody m s w c)).errorMsg =
        some "Note with this signature already exists" ∧
      (serverJsPost store now true clients (strBody m s w c)).store = store ∧
      (serverJsPost store now true clients (strBody m s w c)).sends = []) := by
  have hm' : (m == "") = false := beq_eq_false_iff_ne.mpr hm
  have hs' : (s == "") = false := beq_eq_false_iff_ne.mpr hs
  have hw' : (w == "") = false := beq_eq_false_iff_ne.mpr hw
  have hml' : decide (MESSAGE_MAX_LENGTH < m.length) = false :=
    decide_eq_false (by
      simp only [MESSAGE_MAX_LENGTH]
      omega)
  have hml2 : ¬ MESSAGE_MAX_LENGTH < m.length := by
    simp only [MESSAGE_MAX_LENGTH]
    omega
  have hmemC : (if truthy c = true then castString c else "yellow") ∈ ALLOWED_COLORS := by
    rcases hc with rfl | ⟨cs, rfl, hcs⟩
    · decide
    · simp only [ALLOWED_COLORS, List.mem_cons, List.not_mem_nil, or_false] at hcs
      rcases hcs with rfl | rfl | rfl | rfl | rfl <;> decide
  have hany : store.any (fun n => n.signature == s) = true := by
    rw [List.any_eq_true]
    obtain ⟨n, hn, he⟩ := hdup
    exact ⟨n, hn, beq_iff_eq.mpr he⟩
  have hsave : save store true (mkDoc (strBody m s w c) now) = SaveResult.duplicateKey := by
    rw [mkDoc_strBody]
    unfold save
    simp [hm', hs', hw', hml2, hmemC, hany]
  have h400 := postHandler_of_save_dup clients hsave
  have hvn := validateNote_strBody_none hm hml hs hw hc
  constructor
  · rw [validatedPost_eq_handler hvn, h400]
    exact ⟨rfl, rfl, rfl, rfl⟩
  · rw [serverJsPost_strBody_pass hm hs hw, h400]
    exact ⟨rfl, rfl, rfl, rfl⟩

def demoNote : Note :=
  { message := "hi", signature := "sig1", walletAddress := "0xabc",
    color := "pink", timestamp := 7 }

/-- Witness for C1: resubmitting signature "sig1" with a different message
against a store already holding it. -/
theorem C1_witness :
    ((validatedPost [demoNote] 9 true [] (strBody "bye" "sig1" "0xdef"
        (some (JValue.jstr "blue")))).status = 400 ∧
      (validatedPost [demoNote] 9 true [] (strBody "bye" "sig1" "0xdef"
        (some (JValue.jstr "blue")))).errorMsg =
          some "Note with this signature already exists" ∧
      (validatedPost [demoNote] 9 true [] (strBody "bye" "sig1" "0xdef"
        (some (JValue.jstr "blue")))).store = [demoNote] ∧
      (validatedPost [demoNote] 9 true [] (strBody "bye" "sig1" "0xdef"
        (some (JValue.jstr "blue")))).sends = []) ∧
    ((serverJsPost [demoNote] 9 true [] (strBody "bye" "sig1" "0xdef"
        (some (JValue.jstr "blue")))).status = 400 ∧
      (serverJsPost [demoNote] 9 true [] (strBody "bye" "sig1" "0xdef"
        (some (JValue.jstr "blue")))).errorMsg =
          some "Note with this signature already exists" ∧
      (serverJsPost [demoNote] 9 true [] (strBody "bye" "sig1" "0xdef"
        (some (JValue.jstr "blue")))).store = [demoNote] ∧
      (serverJsPost [demoNote] 9 true [] (strBody "bye" "sig1" "0xdef"
        (some (JValue.jstr "blue")))).sends = []) :=
  C1_duplicate_signature_conflict [demoNote] 9 [] "bye" "sig1" "0xdef"
    (some (JValue.jstr "blue")) (by decide) (by decide) (by decide) (by decide)
    (Or.inr ⟨"blue", rfl, by decide⟩) ⟨demoNote, by decide, rfl⟩

/-- C8: a well-formed submission that omits `color` succeeds with HTTP 201,
the stored note (also returned in the response body) carries the default
color "yellow", and it is appended to the store. -/
theorem C8_default_color (store : List Note) (now : Nat) (clients : List Client)
    (m s w : String) (hm : m ≠ "") (hml : m.length ≤ 500) (hs : s ≠ "") (hw : w ≠ "")
    (hfresh : ∀ n ∈ store, n.signature ≠ s) :
    (validatedPost store now true clients (strBody m s w none)).status = 201 ∧
      (validatedPost store now true clients (strBody m s w none)).note =
        some (mkDoc (strBody m s w none) now) ∧
      (mkDoc (strBody m s w none) now).color = "yellow" ∧
      (validatedPost store now true clients (strBody m s w none)).store =
        store ++ [mkDoc (strBody m s w none) now] := by
  have hm' : (m == "") = false := beq_eq_false_iff_ne.mpr hm
  have hs' : (s == "") = false := beq_eq_false_iff_ne.mpr hs
  have hw' : (w == "") = false := beq_eq_false_iff_ne.mpr hw
  have hml' : decide (MESSAGE_MAX_LENGTH < m.length) = false :=
    decide_eq_false (by
      simp only [MESSAGE_MAX_LENGTH]
      omega)
  have hml2 : ¬ MESSAGE_MAX_LENGTH < m.length := by
    simp only [MESSAGE_MAX_LENGTH]
    omega
  have hyellow : ("yellow" : String) ∈ ALLOWED_COLORS := by decide
  have hany : store.any (fun n => n.signature == s) = false := by
    rw [List.any_eq_false]
    intro n hn
    simpa using hfresh n hn
  have hsave : save store true (mkDoc (strBody m s w none) now) = SaveResult.ok := by
    rw [mkDoc_strBody]
    unfold save
    simp [hm', hs', hw', hml2, hyellow, hany, truthy]
  have hvn := validateNote_strBody_none hm hml hs hw (Or.inl rfl)
  rw [validatedPost_eq_handler hvn, postHandler_of_save_ok clients hsave]
  exact ⟨rfl, rfl, rfl, rfl⟩

/-- Witness for C8 at a concrete submission with no color field. -/
theorem C8_witness :
    (validatedPost [] 7 true [] (strBody "hi" "sig1" "0xabc" none)).status = 201 ∧
      (validatedPost [] 7 true [] (strBody "hi" "sig1" "0xabc" none)).note =
        some (mkDoc (strBody "hi" "sig1" "0xabc" none) 7) ∧
      (mkDoc (strBody "hi" "sig1" "0xabc" none) 7).color = "yellow" ∧
      (validatedPost [] 7 true [] (strBody "hi" "sig1" "0xabc" none)).store =
        [] ++ [mkDoc (strBody "hi" "sig1" "0xabc" none) 7] :=
  C8_default_color [] 7 [] "hi" "sig1" "0xabc" (by decide) (by decide) (by decide)
    (by decide) (by decide)

/-- C9: a `color` field that is present but falsy (any of `""`, `0`,
`false`, `null`) is skipped by the invalid-color check and treated by the
whole POST pipeline exactly as an omitted color, so the constructed
document defaults to "yellow". -/
theorem C9_falsy_color_as_omitted (store : List Note) (now : Nat) (storageOk : Bool)
    (clients : List Client) (mv sv wv : Option JValue) (cv : JValue)
    (hf : truthy (some cv) = false) :
    validateNote ⟨mv, sv, wv, some cv⟩ =
        validateNote ⟨mv, sv, wv, none⟩ ∧
      validatedPost store now storageOk clients ⟨mv, sv, wv, some cv⟩ =
        validatedPost store now storageOk clients ⟨mv, sv, wv, none⟩ ∧
      (mkDoc ⟨mv, sv, wv, some cv⟩ now).color = "yellow" := by
  have hn : truthy (none : Option JValue) = false := rfl
  have hv : validateNote ⟨mv, sv, wv, some cv⟩ =
      validateNote ⟨mv, sv, wv, none⟩ := by
    unfold validateNote
    simp [hf, hn]
  have hd : mkDoc ⟨mv, sv, wv, some cv⟩ now =
      mkDoc ⟨mv, sv, wv, none⟩ now := by
    simp [mkDoc, hf, hn]
  refine ⟨hv, ?_, ?_⟩
  · unfold validatedPost
    rw [hv]
    cases validateNote (⟨mv, sv, wv, none⟩ : Body) with
    | some e => rfl
    | none =>
        unfold postHandler
        rw [hd]
  · simp [mkDoc, hf]

/-- Witness for C9 at the claim's own example, the empty-string color. -/
theorem C9_witness :
    validateNote ⟨some (JValue.jstr "hi"), some (JValue.jstr "sig1"),
        some (JValue.jstr "0xabc"), some (JValue.jstr "")⟩ =
        validateNote ⟨some (JValue.jstr "hi"), some (JValue.jstr "sig1"),
          some (JValue.jstr "0xabc"), none⟩ ∧
      validatedPost [] 7 true [] ⟨some (JValue.jstr "hi"), some (JValue.jstr "sig1"),
          some (JValue.jstr "0xabc"), some (JValue.jstr "")⟩ =
        validatedPost [] 7 true [] ⟨some (JValue.jstr "hi"), some (JValue.jstr "sig1"),
          some (JValue.jstr "0xabc"), none⟩ ∧
      (mkDoc ⟨some (JValue.jstr "hi"), some (JValue.jstr "sig1"),
          some (JValue.jstr "0xabc"), some (JValue.jstr "")⟩ 7).color = "yellow" :=
  C9_falsy_color_as_omitted [] 7 true [] (some (JValue.jstr "hi"))
    (some (JValue.jstr "sig1")) (some (JValue.jstr "0xabc")) (JValue.jstr "") rfl

/-- A submission with a 501-character message (and otherwise valid fields). -/
def longBody : Body :=
  strBody (String.mk (List.replicate 501 'a')) "sig1" "0xabc" (some (JValue.jstr "pink"))

set_option maxRecDepth 8000 in
/-- C6 counterexample: in server.js, which has no validation middleware, a
501-character message passes the inline missing-fields check, fails the
mongoose schema validators inside save, and is answered with HTTP 500 from
the generic catch branch — not with the HTTP 400 the claim asserts. -/
theorem C6_counterexample :
    (serverJsPost [] 0 true [] longBody).status = 500 ∧
      ¬ (serverJsPost [] 0 true [] longBody).status = 400 := by
  constructor
  · decide
  · decide

/-- The request is oversized, carries a mistyped truthy field, or carries a
truthy color outside the palette. -/
def badFields (b : Body) : Prop :=
  lengthExceeds b.message MESSAGE_MAX_LENGTH = true ∨
    (truthy b.message = true ∧ isStr b.message = false) ∨
    (truthy b.signature = true ∧ isStr b.signature = false) ∨
    (truthy b.walletAddress = true ∧ isStr b.walletAddress = false) ∨
    (truthy b.color = true ∧ colorAllowed b.color = false)

/-- C6 amended: in the pipelines that install the `validateNote` middleware
(part_000 and part_001), a request with an oversized message, a mistyped
field, or an invalid color is rejected with HTTP 400 before reaching the
core: the store is unchanged and no broadcast occurs.  (server.js lacks
the middleware and instead answers 500 from schema validation at save for
such requests — see the counterexample.) -/
theorem C6_amended_validation_rejects (store : List Note) (now : Nat) (storageOk : Bool)
    (clients : List Client) (b : Body) (h : badFields b) :
    (validatedPost store now storageOk clients b).status = 400 ∧
      (validatedPost store now storageOk clients b).store = store ∧
      (validatedPost store now storageOk clients b).sends = [] := by
  cases hv : validateNote b with
  | some e =>
      rw [validatedPost_eq_error hv]
      exact ⟨validateNote_some_400 hv, rfl, rfl⟩
  | none =>
      exfalso
      unfold validateNote at hv
      repeat' split at hv
      all_goals simp_all [badFields]

set_option maxRecDepth 8000 in
/-- Witness for C6's amended claim at the 501-character submission. -/
theorem C6_witness :
    (validatedPost [] 0 true [] longBody).status = 400 ∧
      (validatedPost [] 0 true [] longBody).store = [] ∧
      (validatedPost [] 0 true [] longBody).sends = [] :=
  C6_amended_validation_rejects [] 0 true [] longBody (by
    unfold badFields
    exact Or.inl (by decide))

end StickyNotes
